import Mathlib

/-!
Shallow embedding of the SPI driver in src/spi.rs (stm32g4xx-hal).

The driver is a single-threaded, polling, blocking engine.  Every blocking
primitive in the source is a spin loop around a non-blocking probe of the
status register; the spin absorbs the would-block case, so a blocking call
has exactly two observable outcomes: the data interaction happened, or a
fault was returned.  We model this with an abstract device (a fault-free or
faulting line): the i-th fault-checked blocking interaction consults
Dev.out i, and the j-th byte clocked in from the line is Dev.resp j.

Machine integers: all bytes and register fields are modelled as Nat (byte
values are opaque tokens here, never overflowed), and the usize subtractions
of the source are modelled explicitly; a subtraction that would underflow in
Rust (a panic) makes the modelled operation return none.

The source reads the FIFO capacity once per operation; the modelled state
never changes its ftlvl field during an operation, so every occurrence of
fifo_cap s.ftlvl inside one operation is that single entry-time value.
-/

/-- SPI error, from enum Error in spi.rs. -/
inductive Error where
  | Overrun
  | ModeFault
  | Crc
deriving DecidableEq

/-- The status-register fields read by the driver (sr.read() in spi.rs):
overrun, mode fault, CRC error, receive-not-empty, transmit-empty, and the
transmit-FIFO level bits. -/
structure SR where
  ovr : Bool
  modf : Bool
  crcerr : Bool
  rxne : Bool
  txe : Bool
  ftlvl : Nat
deriving DecidableEq

/-- Result of a non-blocking probe (nb::Result in the source). -/
inductive NbRes (A : Type) where
  | ok (a : A)
  | wouldBlock
  | err (e : Error)
deriving DecidableEq

/-- fn nb_read, spi.rs lines 208-221: fault flags checked in priority order
overrun, mode fault, CRC, then data-ready; dr is the data-register value
that read_unchecked would return. -/
def nb_read (sr : SR) (dr : Nat) : NbRes Nat :=
  if sr.ovr then .err .Overrun
  else if sr.modf then .err .ModeFault
  else if sr.crcerr then .err .Crc
  else if sr.rxne then .ok dr
  else .wouldBlock

/-- fn nb_write, spi.rs lines 222-237: same fault priority, then
transmit-space check. -/
def nb_write (sr : SR) : NbRes Unit :=
  if sr.ovr then .err .Overrun
  else if sr.modf then .err .ModeFault
  else if sr.crcerr then .err .Crc
  else if sr.txe then .ok ()
  else .wouldBlock

/-- fn nb_read_no_err, spi.rs lines 238-245: only the receive-not-empty
flag is consulted; no fault flag is checked. -/
def nb_read_no_err (sr : SR) (dr : Nat) : Option Nat :=
  if sr.rxne then some dr else none

/-- fn fifo_cap, spi.rs lines 270-277: FTLVL bits to remaining capacity. -/
def fifo_cap (ftlvl : Nat) : Nat :=
  match ftlvl with
  | 0 => 4
  | 1 => 3
  | 2 => 2
  | _ => 0

/-- The simulated line behind the register block: resp j is the byte the
j-th successful data-register read returns; out i is the fault (if any)
that the status register shows at the i-th fault-checked blocking
interaction. -/
structure Dev where
  resp : Nat → Nat
  out : Nat → Option Error

/-- Driver-visible hardware state threaded through the operations:
the device script, the count of fault-checked blocking interactions, the
count of bytes clocked in, the trace of bytes written to the line, the
FTLVL field the status register reports at capacity queries, the
bidimode/bidioe line-mode bit of cr1, a count of cr1 mode writes, and the
number of stale bytes pending in the receive FIFO (drained by flush). -/
structure St where
  dev : Dev
  probes : Nat
  rxIdx : Nat
  written : List Nat
  ftlvl : Nat
  txOnly : Bool
  cr1Mods : Nat
  pending : Nat

/-- fn set_tx_only, spi.rs lines 258-263: one cr1 modify setting
bidimode and bidioe. -/
def set_tx_only (s : St) : St :=
  { s with txOnly := true, cr1Mods := s.cr1Mods + 1 }

/-- fn set_bidi, spi.rs lines 264-269: one cr1 modify clearing
bidimode and bidioe. -/
def set_bidi (s : St) : St :=
  { s with txOnly := false, cr1Mods := s.cr1Mods + 1 }

/-- State after a fault-checked probe that found a fault flag set: the
probe consumed one interaction and nothing else happened. -/
def stepErr (s : St) : St :=
  { s with probes := s.probes + 1 }

/-- State after a successful blocking write of byte b: one interaction
consumed, the byte appended to the line trace. -/
def stepOk (b : Nat) (s : St) : St :=
  { s with probes := s.probes + 1, written := s.written ++ [b] }

/-- State after an unchecked blocking read: one byte clocked in. -/
def stepRx (s : St) : St :=
  { s with rxIdx := s.rxIdx + 1 }

/-- State after a successful fault-checked blocking read: one interaction
consumed and one byte clocked in. -/
def stepRd (s : St) : St :=
  { s with probes := s.probes + 1, rxIdx := s.rxIdx + 1 }

/-- nb::block!(nb_write b): the spin loop ends with the byte accepted onto
the line, or with the fault the status register showed. -/
def blockWrite (b : Nat) (s : St) : Option Error × St :=
  match s.dev.out s.probes with
  | some e => (some e, stepErr s)
  | none => (none, stepOk b s)

/-- nb::block!(nb_read): the spin loop ends with the next clocked-in byte,
or with the fault the status register showed. -/
def blockRead (s : St) : Option Error × Nat × St :=
  match s.dev.out s.probes with
  | some e => (some e, 0, stepErr s)
  | none => (none, s.dev.resp s.rxIdx, stepRd s)

/-- nb::block!(nb_read_no_err): no fault flag is consulted, so the spin
loop always ends with the next clocked-in byte. -/
def blockReadNoErr (s : St) : Nat × St :=
  (s.dev.resp s.rxIdx, stepRx s)

/-- A sequence of blocking writes (the prefill loops and the body of
write): stops at the first fault. -/
def writeLoop : List Nat → St → Option Error × St
  | [], s => (none, s)
  | w :: ws, s =>
      match blockWrite w s with
      | (some e, s1) => (some e, s1)
      | (none, s1) => writeLoop ws s1

/-- The pipeline loop shared by read and transfer (spi.rs lines 305-310 and
346-350): for each source byte, a fault-checked blocking write followed by
an unchecked blocking read; returns the deposited bytes in order (they
stay deposited when a later write faults). -/
def pipeLoop : List Nat → St → List Nat × Option Error × St
  | [], s => ([], none, s)
  | w :: ws, s =>
      match blockWrite w s with
      | (some e, s1) => ([], some e, s1)
      | (none, s1) =>
          ((blockReadNoErr s1).1 :: (pipeLoop ws (blockReadNoErr s1).2).1,
           (pipeLoop ws (blockReadNoErr s1).2).2.1,
           (pipeLoop ws (blockReadNoErr s1).2).2.2)

/-- The drain loop shared by read and transfer (spi.rs lines 311-313 and
352-355): fault-checked blocking reads only. -/
def drainLoop : Nat → St → List Nat × Option Error × St
  | 0, s => ([], none, s)
  | n + 1, s =>
      match blockRead s with
      | (some e, _, s1) => ([], some e, s1)
      | (none, b, s1) =>
          (b :: (drainLoop n s1).1, (drainLoop n s1).2.1, (drainLoop n s1).2.2)

/-- SpiBus::read, spi.rs lines 295-314.  Returns the final destination
buffer contents, the call result, and the final state; none models a
panic: the source computes words[..len - prefill] with usize arithmetic,
which underflows when the buffer is shorter than the prefill (the prefill
loop writes fifo_cap filler bytes first, with no min against the length). -/
def spiRead (words : List Nat) (s : St) :
    Option (List Nat × Option Error × St) :=
  if words.length = 0 then some (words, none, s)
  else
    match writeLoop (List.replicate (fifo_cap s.ftlvl) 0) s with
    | (some e, s1) => some (words, some e, s1)
    | (none, s1) =>
        if words.length < fifo_cap s.ftlvl then none
        else
          match pipeLoop
              (List.replicate (words.length - fifo_cap s.ftlvl) 0) s1 with
          | (bs, some e, s2) => some (bs ++ words.drop bs.length, some e, s2)
          | (bs, none, s2) =>
              some ((bs ++ (drainLoop (fifo_cap s.ftlvl) s2).1)
                      ++ words.drop
                        (bs ++ (drainLoop (fifo_cap s.ftlvl) s2).1).length,
                    (drainLoop (fifo_cap s.ftlvl) s2).2.1,
                    (drainLoop (fifo_cap s.ftlvl) s2).2.2)

/-- SpiBus::write, spi.rs lines 316-325: force transmit-only mode, write
every byte with the fault-checked blocking primitive, restore
bidirectional mode on both the success and the fault path. -/
def spiWrite (words : List Nat) (s : St) : Option Error × St :=
  ((writeLoop words (set_tx_only s)).1,
   set_bidi (writeLoop words (set_tx_only s)).2)

/-- SpiBus::transfer, spi.rs lines 327-362.  Degenerate sides delegate to
write or read; otherwise prefill with up to fifo_cap bytes of real data,
pipeline over the common length, drain the in-flight bytes into the read
buffer, then recurse into read or write for the longer tail.  none models
the usize underflow panic of common_len - prefilled, reached whenever the
prefilled count min(fifo_cap, len write) exceeds min(len read, len write). -/
def spiTransfer (rd wr : List Nat) (s : St) :
    Option (List Nat × Option Error × St) :=
  if rd.length = 0 then
    some (rd, (spiWrite wr s).1, (spiWrite wr s).2)
  else if wr.length = 0 then
    spiRead rd s
  else
    match writeLoop (wr.take (min (fifo_cap s.ftlvl) wr.length)) s with
    | (some e, s1) => some (rd, some e, s1)
    | (none, s1) =>
        if min rd.length wr.length < min (fifo_cap s.ftlvl) wr.length then
          none
        else
          match pipeLoop
              ((wr.drop (min (fifo_cap s.ftlvl) wr.length)).take
                (min rd.length wr.length - min (fifo_cap s.ftlvl) wr.length))
              s1 with
          | (bs, some e, s2) => some (bs ++ rd.drop bs.length, some e, s2)
          | (bs, none, s2) =>
              match drainLoop (min (fifo_cap s.ftlvl) wr.length) s2 with
              | (bs2, some e, s3) =>
                  some ((bs ++ bs2) ++ rd.drop (bs ++ bs2).length, some e, s3)
              | (bs2, none, s3) =>
                  if min rd.length wr.length < rd.length then
                    match spiRead (rd.drop (min rd.length wr.length)) s3 with
                    | none => none
                    | some t => some ((bs ++ bs2) ++ t.1, t.2.1, t.2.2)
                  else
                    some ((bs ++ bs2) ++ rd.drop (bs ++ bs2).length,
                      (spiWrite (wr.drop (min rd.length wr.length)) s3).1,
                      (spiWrite (wr.drop (min rd.length wr.length)) s3).2)

/-- The pipeline loop of SpiBus::transfer_in_place, spi.rs lines 376-379.
The source destructures write_iter.zip(read_iter) as (r, w), so the byte
transmitted is taken from the trailing (read) cursor at index i of the
live buffer, and the received byte is deposited at the leading (write)
cursor position p + i.  The buffer is threaded, so a transmit at index i
sees any deposit already made there. -/
def tipPipeline (p : Nat) : Nat → Nat → List Nat → St →
    List Nat × Option Error × St
  | 0, _, buf, s => (buf, none, s)
  | k + 1, i, buf, s =>
      match blockWrite (buf.getD i 0) s with
      | (some e, s1) => (buf, some e, s1)
      | (none, s1) =>
          tipPipeline p k (i + 1)
            (buf.set (p + i) (blockReadNoErr s1).1) (blockReadNoErr s1).2

/-- The drain loop of SpiBus::transfer_in_place, spi.rs lines 381-383:
fault-checked blocking reads deposited at the remaining read-cursor
positions i, i+1, ... -/
def tipDrain : Nat → Nat → List Nat → St → List Nat × Option Error × St
  | 0, _, buf, s => (buf, none, s)
  | k + 1, i, buf, s =>
      match blockRead s with
      | (some e, _, s1) => (buf, some e, s1)
      | (none, b, s1) => tipDrain k (i + 1) (buf.set i b) s1

/-- SpiBus::transfer_in_place, spi.rs lines 363-384: prefill transmits the
first min(fifo_cap, len) bytes; the pipeline runs for the remaining
len - p positions of the leading cursor; the drain consumes the rest of
the trailing cursor. -/
def spiTransferInPlace (words : List Nat) (s : St) :
    List Nat × Option Error × St :=
  if words.length = 0 then (words, none, s)
  else
    match writeLoop (words.take (min (fifo_cap s.ftlvl) words.length)) s with
    | (some e, s1) => (words, some e, s1)
    | (none, s1) =>
        match tipPipeline (min (fifo_cap s.ftlvl) words.length)
            (words.length - min (fifo_cap s.ftlvl) words.length) 0
            words s1 with
        | (buf, some e, s2) => (buf, some e, s2)
        | (buf, none, s2) =>
            tipDrain (min (fifo_cap s.ftlvl) words.length)
              (words.length - min (fifo_cap s.ftlvl) words.length) buf s2

/-- The flush drain loop, spi.rs lines 388-392: the fault-checked
non-blocking read either faults, consumes one stale byte, or reports
would-block and ends the loop; the loop runs until the pending count is
exhausted, and even the final would-block probe goes through the fault
checks first. -/
def flushDrain : Nat → St → Option Error × St
  | 0, s =>
      match s.dev.out s.probes with
      | some e => (some e, stepErr s)
      | none => (none, stepErr s)
  | n + 1, s =>
      match s.dev.out s.probes with
      | some e => (some e, stepErr s)
      | none => flushDrain n { stepRd s with pending := s.pending - 1 }

/-- The FTLVL spin of flush, spi.rs line 394: the wait ends when the
transmit FIFO level reports empty. -/
def waitTxEmpty (s : St) : St :=
  { s with ftlvl := 0 }

/-- SpiBus::flush, spi.rs lines 385-403: force transmit-only mode, drain
stale received bytes propagating any fault, wait for the transmit FIFO to
empty, restore bidirectional mode on both exit paths. -/
def spiFlush (s : St) : Option Error × St :=
  match flushDrain (set_tx_only s).pending (set_tx_only s) with
  | (some e, s1) => (some e, set_bidi s1)
  | (none, s1) => (none, set_bidi (waitTxEmpty s1))

/-- Baud-rate register code from the quotient bus_freq / spi_freq,
spi.rs lines 147-157: the arm for quotient 0 is unreachable!(), here none. -/
def brTable (q : Nat) : Option Nat :=
  if q = 0 then none
  else if q ≤ 2 then some 0
  else if q ≤ 5 then some 1
  else if q ≤ 11 then some 2
  else if q ≤ 23 then some 3
  else if q ≤ 47 then some 4
  else if q ≤ 95 then some 5
  else if q ≤ 191 then some 6
  else some 7

/-- The baud computation of the constructor, spi.rs lines 145-157. -/
def spi_br (bus_freq spi_freq : Nat) : Option Nat :=
  brTable (bus_freq / spi_freq)

/-- Division factor encoded by a baud-register code. -/
def brDiv (b : Nat) : Nat := 2 ^ (b + 1)

/-- Modelled from the spec: the selection rule the spec states for the
baud divisor, the smallest factor of the fixed set whose division keeps
the line at or below the target frequency (integer division, as the spec
compares bus_clock divided by the factor against target_frequency). -/
def specSmallestDiv (bus tgt : Nat) : Option Nat :=
  [2, 4, 8, 16, 32, 64, 128, 256].find? (fun r => bus / r ≤ tgt)

/-- The rule the code actually implements, phrased on the quotient
q = bus_freq / spi_freq: the smallest factor r of the fixed set with
2 * q < 3 * r (the line rate stays strictly below one and a half times the
target), or 256 when even the largest factor misses that bound. -/
def halfStepDiv (q : Nat) : Nat :=
  if 2 * q < 6 then 2
  else if 2 * q < 12 then 4
  else if 2 * q < 24 then 8
  else if 2 * q < 48 then 16
  else if 2 * q < 96 then 32
  else if 2 * q < 192 then 64
  else if 2 * q < 384 then 128
  else 256

/-- The bytes the line clocks in: positions i, i+1, ..., i+n-1 of the
device's response stream. -/
def respList (d : Dev) (i : Nat) : Nat → List Nat
  | 0 => []
  | n + 1 => d.resp i :: respList d (i + 1) n

/-- A fault-free echo device: the j-th clocked-in byte is 10 + j. -/
def devEcho : Dev :=
  { resp := fun j => 10 + j, out := fun _ => none }

/-- A device that raises Overrun at the fault-checked interaction k. -/
def devFaultAt (k : Nat) : Dev :=
  { resp := fun j => 10 + j,
    out := fun i => if i = k then some .Overrun else none }

/-- Fresh driver state over a device: no interactions yet, transmit FIFO
empty (FTLVL = 0, so fifo_cap reports 4), bidirectional mode. -/
def mkSt (d : Dev) : St :=
  { dev := d, probes := 0, rxIdx := 0, written := [], ftlvl := 0,
    txOnly := false, cr1Mods := 0, pending := 0 }

/-- Fresh state over the fault-free echo device. -/
def st0 : St := mkSt devEcho

/-- Fresh state over the device faulting at interaction 5. -/
def stF5 : St := mkSt (devFaultAt 5)

/-! ## Theorems -/

/-- Claim C1 (code bug).  The spec says read prefills min(cap, N) filler
bytes and performs exactly N writes for every non-empty buffer; the code
prefills fifo_cap fillers with no min against N, then computes the slice
bound len - prefill, whose usize subtraction underflows for 0 < N < cap:
on a 1-byte buffer with capacity 4, the call writes 4 fillers and then
panics (modelled as none) instead of performing exactly 1 write. -/
theorem claim1_read_short_buffer_panics :
    spiRead [5] st0 = none ∧
    (writeLoop (List.replicate (fifo_cap st0.ftlvl) 0) st0).2.written
      = [0, 0, 0, 0] :=
  ⟨rfl, rfl⟩

/-- Claim C4 (code bug).  With a 1-byte read buffer, a 4-byte write buffer
and FIFO capacity 4, the prefilled count is 4 while common_len is 1, so
the drain arithmetic common_len - prefilled underflows and the call
panics (modelled as none), contradicting the claimed invariant
prefilled <= common_len. -/
theorem claim4_transfer_drain_underflows :
    spiTransfer [5] [1, 2, 3, 4] st0 = none :=
  rfl

/-- Claim C5 (code bug).  On a 5-byte buffer with capacity 4 and line
responses 10..14, transfer into a copy of the buffer yields 10,11,12,13,14
while transfer_in_place leaves 1,11,12,13,14: the in-place pipeline
destructures the zipped cursors swapped, so position 0 keeps its original
byte and the two results are not byte-identical. -/
theorem claim5_in_place_differs_from_copy :
    (spiTransfer [1, 2, 3, 4, 5] [1, 2, 3, 4, 5] st0).map (fun x => x.1)
      = some [10, 11, 12, 13, 14] ∧
    (spiTransfer [1, 2, 3, 4, 5] [1, 2, 3, 4, 5] st0).map (fun x => x.2.1)
      = some none ∧
    (spiTransferInPlace [1, 2, 3, 4, 5] st0).1 = [1, 11, 12, 13, 14] ∧
    (spiTransferInPlace [1, 2, 3, 4, 5] st0).2.1 = none ∧
    ([10, 11, 12, 13, 14] : List Nat) ≠ [1, 11, 12, 13, 14] :=
  ⟨rfl, rfl, rfl, rfl, by decide⟩

/-- Claim C9 (code bug).  In the same 5-byte in-place run, the byte 5 at
position 4 is overwritten by received data although it is never
transmitted (the line trace is 1,2,3,4,1): the receive deposits of the
pipeline land at the leading cursor, ahead of the bytes it transmits, so a
position is overwritten before being consumed as transmit data. -/
theorem claim9_position_overwritten_before_transmit :
    (spiTransferInPlace [1, 2, 3, 4, 5] st0).2.2.written = [1, 2, 3, 4, 1] ∧
    (5 : Nat) ∉ ([1, 2, 3, 4, 1] : List Nat) ∧
    (spiTransferInPlace [1, 2, 3, 4, 5] st0).1.getD 4 0 ≠ (5 : Nat) :=
  ⟨rfl, by decide, by decide⟩

/-- Claim C3 counterexample.  transfer with two zero-length buffers
returns success but delegates to write, which performs the transmit-only
and bidirectional mode-switch writes to cr1: two control-register
modifications, not zero hardware register accesses. -/
theorem claim3_empty_transfer_touches_cr1 :
    (spiTransfer [] [] st0).map (fun x => (x.1, x.2.1, x.2.2.cr1Mods))
      = some ([], none, 2) ∧ (2 : Nat) ≠ 0 :=
  ⟨rfl, by decide⟩

/-- Claim C3 as amended.  Zero-length operations return success
immediately: read and transfer_in_place without any register access;
write, and transfer with both buffers empty (it delegates to write),
without any data- or status-register interaction but with the two cr1
mode-switch modifications, leaving the line trace, the clocked-in count
and the probe count unchanged. -/
theorem claim3_amended_zero_length_success (s : St) :
    spiRead [] s = some ([], none, s) ∧
    spiTransferInPlace [] s = ([], none, s) ∧
    spiWrite [] s = (none, set_bidi (set_tx_only s)) ∧
    spiTransfer [] [] s = some ([], none, set_bidi (set_tx_only s)) ∧
    (set_bidi (set_tx_only s)).cr1Mods = s.cr1Mods + 2 ∧
    (set_bidi (set_tx_only s)).written = s.written ∧
    (set_bidi (set_tx_only s)).rxIdx = s.rxIdx ∧
    (set_bidi (set_tx_only s)).probes = s.probes :=
  ⟨rfl, rfl, rfl, rfl, rfl, rfl, rfl, rfl⟩

/-- Claim C2 counterexample.  For bus clock 72 MHz and target 30 MHz the
quotient is 2, so the code selects code 0, division factor 2, giving a
36 MHz line: it exceeds the requested 30 MHz, while the smallest factor
whose division does not exceed the target is 4.  The selection is not the
spec's never-exceed rule. -/
theorem claim2_selected_factor_exceeds_target :
    spi_br 72000000 30000000 = some 0 ∧
    brDiv 0 = 2 ∧
    30000000 < 72000000 / brDiv 0 ∧
    specSmallestDiv 72000000 30000000 = some 4 :=
  ⟨rfl, rfl, by decide, by decide⟩

/-- The table of spi.rs lines 147-157 selects, for every quotient at least
1, the smallest factor of the fixed set whose selection keeps twice the
quotient below three times the factor, with 256 as the saturating last
arm. -/
theorem brTable_halfStep (q : Nat) (h1 : 1 ≤ q) :
    (brTable q).map brDiv = some (halfStepDiv q) := by
  have h0 : ¬ q = 0 := by omega
  by_cases c1 : q ≤ 2
  · unfold brTable halfStepDiv
    rw [if_neg h0, if_pos c1, if_pos (by omega : 2 * q < 6)]
    norm_num [brDiv]
  · by_cases c2 : q ≤ 5
    · unfold brTable halfStepDiv
      rw [if_neg h0, if_neg c1, if_pos c2, if_neg (by omega : ¬ 2 * q < 6),
        if_pos (by omega : 2 * q < 12)]
      norm_num [brDiv]
    · by_cases c3 : q ≤ 11
      · unfold brTable halfStepDiv
        rw [if_neg h0, if_neg c1, if_neg c2, if_pos c3,
          if_neg (by omega : ¬ 2 * q < 6), if_neg (by omega : ¬ 2 * q < 12),
          if_pos (by omega : 2 * q < 24)]
        norm_num [brDiv]
      · by_cases c4 : q ≤ 23
        · unfold brTable halfStepDiv
          rw [if_neg h0, if_neg c1, if_neg c2, if_neg c3, if_pos c4,
            if_neg (by omega : ¬ 2 * q < 6), if_neg (by omega : ¬ 2 * q < 12),
            if_neg (by omega : ¬ 2 * q < 24), if_pos (by omega : 2 * q < 48)]
          norm_num [brDiv]
        · by_cases c5 : q ≤ 47
          · unfold brTable halfStepDiv
            rw [if_neg h0, if_neg c1, if_neg c2, if_neg c3, if_neg c4,
              if_pos c5, if_neg (by omega : ¬ 2 * q < 6),
              if_neg (by omega : ¬ 2 * q < 12),
              if_neg (by omega : ¬ 2 * q < 24),
              if_neg (by omega : ¬ 2 * q < 48),
              if_pos (by omega : 2 * q < 96)]
            norm_num [brDiv]
          · by_cases c6 : q ≤ 95
            · unfold brTable halfStepDiv
              rw [if_neg h0, if_neg c1, if_neg c2, if_neg c3, if_neg c4,
                if_neg c5, if_pos c6, if_neg (by omega : ¬ 2 * q < 6),
                if_neg (by omega : ¬ 2 * q < 12),
                if_neg (by omega : ¬ 2 * q < 24),
                if_neg (by omega : ¬ 2 * q < 48),
                if_neg (by omega : ¬ 2 * q < 96),
                if_pos (by omega : 2 * q < 192)]
              norm_num [brDiv]
            · by_cases c7 : q ≤ 191
              · unfold brTable halfStepDiv
                rw [if_neg h0, if_neg c1, if_neg c2, if_neg c3, if_neg c4,
                  if_neg c5, if_neg c6, if_pos c7,
                  if_neg (by omega : ¬ 2 * q < 6),
                  if_neg (by omega : ¬ 2 * q < 12),
                  if_neg (by omega : ¬ 2 * q < 24),
                  if_neg (by omega : ¬ 2 * q < 48),
                  if_neg (by omega : ¬ 2 * q < 96),
                  if_neg (by omega : ¬ 2 * q < 192),
                  if_pos (by omega : 2 * q < 384)]
                norm_num [brDiv]
              · unfold brTable halfStepDiv
                rw [if_neg h0, if_neg c1, if_neg c2, if_neg c3, if_neg c4,
                  if_neg c5, if_neg c6, if_neg c7,
                  if_neg (by omega : ¬ 2 * q < 6),
                  if_neg (by omega : ¬ 2 * q < 12),
                  if_neg (by omega : ¬ 2 * q < 24),
                  if_neg (by omega : ¬ 2 * q < 48),
                  if_neg (by omega : ¬ 2 * q < 96),
                  if_neg (by omega : ¬ 2 * q < 192)]
                rw [if_neg (by omega : ¬ 2 * q < 384)]
                norm_num [brDiv]

/-- Claim C2 as amended.  Under bus_clock at least target and target
positive, the selected factor is the smallest of the fixed set keeping
the line strictly below one and a half times the target (saturating at
256), which can exceed the target itself; the two concrete parts of the
claim hold: 72 MHz bus with 9 MHz target selects code 2, factor 8, and a
target above the bus clock reaches the unreachable arm (none). -/
theorem claim2_amended_baud_selection (bus tgt : Nat) (h0 : 0 < tgt)
    (h1 : tgt ≤ bus) :
    (spi_br bus tgt).map brDiv = some (halfStepDiv (bus / tgt)) ∧
    spi_br 72000000 9000000 = some 2 ∧ brDiv 2 = 8 ∧
    (∀ b2 t2, b2 < t2 → spi_br b2 t2 = none) := by
  refine ⟨?_, rfl, rfl, ?_⟩
  · apply brTable_halfStep
    rw [Nat.le_div_iff_mul_le h0]
    omega
  · intro b2 t2 h
    unfold spi_br
    rw [Nat.div_eq_of_lt h]
    rfl

/-- Witness for the amended claim C2, at bus 72 MHz and target 9 MHz. -/
theorem claim2_amended_baud_selection_witness :
    (spi_br 72000000 9000000).map brDiv
      = some (halfStepDiv (72000000 / 9000000)) :=
  (claim2_amended_baud_selection 72000000 9000000 (by norm_num)
    (by norm_num)).1

/-- Claim C8.  The non-blocking probes evaluate the status flags in the
fixed priority order overrun, mode fault, CRC error, then
data-ready/space-ready: whenever the overrun bit is set the result is the
Overrun fault regardless of every other bit, and so on down the chain. -/
theorem claim8_probe_fault_priority (sr : SR) (v : Nat) :
    (sr.ovr = true →
      nb_read sr v = .err .Overrun ∧ nb_write sr = .err .Overrun) ∧
    (sr.ovr = false → sr.modf = true →
      nb_read sr v = .err .ModeFault ∧ nb_write sr = .err .ModeFault) ∧
    (sr.ovr = false → sr.modf = false → sr.crcerr = true →
      nb_read sr v = .err .Crc ∧ nb_write sr = .err .Crc) ∧
    (sr.ovr = false → sr.modf = false → sr.crcerr = false →
      nb_read sr v = (if sr.rxne then .ok v else .wouldBlock) ∧
      nb_write sr = (if sr.txe then .ok () else .wouldBlock)) := by
  refine ⟨fun h1 => ?_, fun h1 h2 => ?_, fun h1 h2 h3 => ?_,
    fun h1 h2 h3 => ?_⟩
  · simp [nb_read, nb_write, h1]
  · simp [nb_read, nb_write, h1, h2]
  · simp [nb_read, nb_write, h1, h2, h3]
  · simp [nb_read, nb_write, h1, h2, h3]

/-- Witness for claim C8: with every flag set, both probes report
Overrun. -/
theorem claim8_probe_fault_priority_witness :
    nb_read
        { ovr := true, modf := true, crcerr := true, rxne := true,
          txe := true, ftlvl := 0 } 7 = .err .Overrun ∧
    nb_write
        { ovr := true, modf := true, crcerr := true, rxne := true,
          txe := true, ftlvl := 0 } = .err .Overrun :=
  (claim8_probe_fault_priority
    { ovr := true, modf := true, crcerr := true, rxne := true,
      txe := true, ftlvl := 0 } 7).1 rfl

/-- Claim C10.  The unchecked probe used by the pipeline phases consults
only the data-ready flag: for every status value with a fault bit set but
data ready, it returns the data value, while the checked probe on the
same status value would have returned a fault. -/
theorem claim10_unchecked_probe_ignores_faults (sr : SR) (v : Nat)
    (h1 : sr.rxne = true)
    (h2 : sr.ovr = true ∨ sr.modf = true ∨ sr.crcerr = true) :
    nb_read_no_err sr v = some v ∧ ∃ e, nb_read sr v = .err e := by
  refine ⟨by simp [nb_read_no_err, h1], ?_⟩
  by_cases ho : sr.ovr = true
  · exact ⟨.Overrun, by simp [nb_read, ho]⟩
  · have ho2 : sr.ovr = false := by
      cases hb : sr.ovr
      · rfl
      · exact absurd hb ho
    by_cases hm : sr.modf = true
    · exact ⟨.ModeFault, by simp [nb_read, ho2, hm]⟩
    · have hm2 : sr.modf = false := by
        cases hb : sr.modf
        · rfl
        · exact absurd hb hm
      have hc : sr.crcerr = true := by
        rcases h2 with h | h | h
        · exact absurd h ho
        · exact absurd h hm
        · exact h
      exact ⟨.Crc, by simp [nb_read, ho2, hm2, hc]⟩

/-- Witness for claim C10: overrun flagged together with data ready. -/
theorem claim10_unchecked_probe_ignores_faults_witness :
    nb_read_no_err
        { ovr := true, modf := false, crcerr := false, rxne := true,
          txe := false, ftlvl := 0 } 3 = some 3 ∧
    ∃ e, nb_read
        { ovr := true, modf := false, crcerr := false, rxne := true,
          txe := false, ftlvl := 0 } 3 = .err e :=
  claim10_unchecked_probe_ignores_faults
    { ovr := true, modf := false, crcerr := false, rxne := true,
      txe := false, ftlvl := 0 } 3 rfl (Or.inl rfl)

/-- The blocking write loop never touches the cr1 line-mode bit. -/
theorem writeLoop_txOnly (ws : List Nat) (s : St) :
    (writeLoop ws s).2.txOnly = s.txOnly := by
  induction ws generalizing s with
  | nil => rfl
  | cons w ws ih =>
    unfold writeLoop blockWrite
    cases hout : s.dev.out s.probes
    · exact ih _
    · rfl

/-- The flush drain loop never touches the cr1 line-mode bit. -/
theorem flushDrain_txOnly (n : Nat) (s : St) :
    (flushDrain n s).2.txOnly = s.txOnly := by
  induction n generalizing s with
  | zero =>
    unfold flushDrain
    cases hout : s.dev.out s.probes
    · rfl
    · rfl
  | succ n ih =>
    unfold flushDrain
    cases hout : s.dev.out s.probes
    · exact ih _
    · rfl

/-- Claim C7.  write and flush force transmit-only line mode at entry
(their bodies run with the mode bit set) and restore bidirectional mode on
every exit path: over every device script, faulting or not, the state
they return has the mode bit cleared. -/
theorem claim7_mode_forced_and_restored (ws : List Nat) (s : St) (n : Nat) :
    (spiWrite ws s).2.txOnly = false ∧
    (spiFlush s).2.txOnly = false ∧
    (set_tx_only s).txOnly = true ∧
    (writeLoop ws (set_tx_only s)).2.txOnly = true ∧
    (flushDrain n (set_tx_only s)).2.txOnly = true := by
  refine ⟨rfl, ?_, rfl, ?_, ?_⟩
  · unfold spiFlush
    rcases hf : flushDrain (set_tx_only s).pending (set_tx_only s) with ⟨o, s1⟩
    cases o
    · rfl
    · rfl
  · rw [writeLoop_txOnly]
    rfl
  · rw [flushDrain_txOnly]
    rfl

/-- Length of a clocked-in segment. -/
theorem respList_length (d : Dev) (n : Nat) :
    ∀ i, (respList d i n).length = n := by
  induction n with
  | zero => intro i; rfl
  | succ n ih =>
    intro i
    simp only [respList, List.length_cons, ih]

/-- Splitting a clocked-in segment. -/
theorem respList_append (d : Dev) (a : Nat) :
    ∀ i b, respList d i (a + b) = respList d i a ++ respList d (i + a) b := by
  induction a with
  | zero =>
    intro i b
    simp [respList]
  | succ a ih =>
    intro i b
    have h1 : a + 1 + b = (a + b) + 1 := by omega
    rw [h1]
    simp only [respList]
    rw [ih (i + 1) b]
    have h2 : i + 1 + a = i + (a + 1) := by omega
    rw [h2]
    rw [List.cons_append]

/-- The blocking write loop clocks no byte in and keeps the device and the
FIFO level field. -/
theorem writeLoop_pres (ws : List Nat) (s : St) :
    (writeLoop ws s).2.dev = s.dev ∧ (writeLoop ws s).2.rxIdx = s.rxIdx ∧
    (writeLoop ws s).2.ftlvl = s.ftlvl := by
  induction ws generalizing s with
  | nil => exact ⟨rfl, rfl, rfl⟩
  | cons w ws ih =>
    unfold writeLoop blockWrite
    cases hout : s.dev.out s.probes
    · exact ih _
    · exact ⟨rfl, rfl, rfl⟩

/-- The pipeline loop deposits exactly the clocked-in bytes, in order: its
result list is the response stream starting at the entry read index, one
byte per completed iteration, all iterations completing when no fault is
hit. -/
theorem pipeLoop_spec (ws : List Nat) (s : St) :
    (pipeLoop ws s).2.2.dev = s.dev ∧
    (pipeLoop ws s).2.2.rxIdx = s.rxIdx + (pipeLoop ws s).1.length ∧
    (pipeLoop ws s).1 = respList s.dev s.rxIdx (pipeLoop ws s).1.length ∧
    (pipeLoop ws s).1.length ≤ ws.length ∧
    ((pipeLoop ws s).2.1 = none → (pipeLoop ws s).1.length = ws.length) := by
  induction ws generalizing s with
  | nil => exact ⟨rfl, rfl, rfl, Nat.le_refl 0, fun _ => rfl⟩
  | cons w ws ih =>
    unfold pipeLoop blockWrite
    cases hout : s.dev.out s.probes
    case none =>
      obtain ⟨k1, k2, k3, k4, k5⟩ := ih (stepRx (stepOk w s))
      have e2 : (pipeLoop ws (stepRx (stepOk w s))).2.2.rxIdx
          = s.rxIdx + 1 + (pipeLoop ws (stepRx (stepOk w s))).1.length := k2
      have e3 : (pipeLoop ws (stepRx (stepOk w s))).1
          = respList s.dev (s.rxIdx + 1)
              (pipeLoop ws (stepRx (stepOk w s))).1.length := k3
      have e5 : (pipeLoop ws (stepRx (stepOk w s))).2.1 = none →
          (pipeLoop ws (stepRx (stepOk w s))).1.length = ws.length := k5
      refine ⟨k1, ?_, ?_, ?_, ?_⟩
      · show (pipeLoop ws (stepRx (stepOk w s))).2.2.rxIdx
            = s.rxIdx + ((pipeLoop ws (stepRx (stepOk w s))).1.length + 1)
        omega
      · show s.dev.resp s.rxIdx :: (pipeLoop ws (stepRx (stepOk w s))).1
            = respList s.dev s.rxIdx
                ((pipeLoop ws (stepRx (stepOk w s))).1.length + 1)
        simp only [respList]
        rw [← e3]
      · show (pipeLoop ws (stepRx (stepOk w s))).1.length + 1 ≤ ws.length + 1
        omega
      · intro hno
        show (pipeLoop ws (stepRx (stepOk w s))).1.length + 1 = ws.length + 1
        have := e5 hno
        omega
    case some e =>
      exact ⟨rfl, rfl, rfl, Nat.zero_le _, fun hno => Option.noConfusion hno⟩

/-- The drain loop deposits exactly the clocked-in bytes, in order, one
per completed iteration, all n iterations completing when no fault is
hit. -/
theorem drainLoop_spec (n : Nat) (s : St) :
    (drainLoop n s).2.2.dev = s.dev ∧
    (drainLoop n s).2.2.rxIdx = s.rxIdx + (drainLoop n s).1.length ∧
    (drainLoop n s).1 = respList s.dev s.rxIdx (drainLoop n s).1.length ∧
    (drainLoop n s).1.length ≤ n ∧
    ((drainLoop n s).2.1 = none → (drainLoop n s).1.length = n) := by
  induction n generalizing s with
  | zero => exact ⟨rfl, rfl, rfl, Nat.le_refl 0, fun _ => rfl⟩
  | succ n ih =>
    unfold drainLoop blockRead
    cases hout : s.dev.out s.probes
    case none =>
      obtain ⟨k1, k2, k3, k4, k5⟩ := ih (stepRd s)
      have e2 : (drainLoop n (stepRd s)).2.2.rxIdx
          = s.rxIdx + 1 + (drainLoop n (stepRd s)).1.length := k2
      have e3 : (drainLoop n (stepRd s)).1
          = respList s.dev (s.rxIdx + 1) (drainLoop n (stepRd s)).1.length := k3
      have e5 : (drainLoop n (stepRd s)).2.1 = none →
          (drainLoop n (stepRd s)).1.length = n := k5
      refine ⟨k1, ?_, ?_, ?_, ?_⟩
      · show (drainLoop n (stepRd s)).2.2.rxIdx
            = s.rxIdx + ((drainLoop n (stepRd s)).1.length + 1)
        omega
      · show s.dev.resp s.rxIdx :: (drainLoop n (stepRd s)).1
            = respList s.dev s.rxIdx ((drainLoop n (stepRd s)).1.length + 1)
        simp only [respList]
        rw [← e3]
      · show (drainLoop n (stepRd s)).1.length + 1 ≤ n + 1
        omega
      · intro hno
        show (drainLoop n (stepRd s)).1.length + 1 = n + 1
        have := e5 hno
        omega
    case some e =>
      exact ⟨rfl, rfl, rfl, Nat.zero_le _, fun hno => Option.noConfusion hno⟩

/-- Core lemma for read: whatever the device script, if read returns a
fault then the destination holds the k bytes clocked in before the fault
as its prefix, in order, and the original contents beyond them. -/
theorem spiRead_fault_core (words : List Nat) (s : St) (buf : List Nat)
    (e : Error) (s1 : St)
    (h : spiRead words s = some (buf, some e, s1)) :
    ∃ k, k ≤ words.length ∧ s1.rxIdx = s.rxIdx + k ∧
      buf = respList s.dev s.rxIdx k ++ words.drop k := by
  unfold spiRead at h
  by_cases h0 : words.length = 0
  · rw [if_pos h0] at h
    simp at h
  · rw [if_neg h0] at h
    rcases hw : writeLoop (List.replicate (fifo_cap s.ftlvl) 0) s with ⟨o1, t1⟩
    rw [hw] at h
    obtain ⟨w1, w2, w3⟩ := writeLoop_pres (List.replicate (fifo_cap s.ftlvl) 0) s
    rw [hw] at w1 w2 w3
    have t1dev : t1.dev = s.dev := w1
    have t1rx : t1.rxIdx = s.rxIdx := w2
    cases o1 with
    | some e1 =>
      simp at h
      obtain ⟨hbuf, he, hs⟩ := h
      refine ⟨0, Nat.zero_le _, ?_, ?_⟩
      · rw [← hs, t1rx]
        omega
      · rw [← hbuf]
        simp [respList]
    | none =>
      dsimp only at h
      by_cases h2 : words.length < fifo_cap s.ftlvl
      · rw [if_pos h2] at h
        exact Option.noConfusion h
      · rw [if_neg h2] at h
        rcases hp : pipeLoop
            (List.replicate (words.length - fifo_cap s.ftlvl) 0) t1
            with ⟨bs, o2, t2⟩
        rw [hp] at h
        obtain ⟨p1, p2, p3, p4, p5⟩ := pipeLoop_spec
          (List.replicate (words.length - fifo_cap s.ftlvl) 0) t1
        rw [hp] at p1 p2 p3 p4 p5
        have p1a : t2.dev = t1.dev := p1
        have p2a : t2.rxIdx = t1.rxIdx + bs.length := p2
        have p3a : bs = respList t1.dev t1.rxIdx bs.length := p3
        have p4a : bs.length
            ≤ (List.replicate (words.length - fifo_cap s.ftlvl) (0 : Nat)).length := p4
        have p5a : o2 = none → bs.length
            = (List.replicate (words.length - fifo_cap s.ftlvl) (0 : Nat)).length := p5
        rw [List.length_replicate] at p4a p5a
        have hbsr : bs = respList s.dev s.rxIdx bs.length := by
          rw [← t1dev, ← t1rx]
          exact p3a
        cases o2 with
        | some e2 =>
          simp at h
          obtain ⟨hbuf, he, hs⟩ := h
          refine ⟨bs.length, by omega, ?_, ?_⟩
          · rw [← hs, p2a, t1rx]
          · rw [← hbuf, ← hbsr]
        | none =>
          dsimp only at h
          rcases hd : drainLoop (fifo_cap s.ftlvl) t2 with ⟨bs2, o3, t3⟩
          rw [hd] at h
          obtain ⟨q1, q2, q3, q4, q5⟩ := drainLoop_spec (fifo_cap s.ftlvl) t2
          rw [hd] at q1 q2 q3 q4 q5
          have q2a : t3.rxIdx = t2.rxIdx + bs2.length := q2
          have q3a : bs2 = respList t2.dev t2.rxIdx bs2.length := q3
          have q4a : bs2.length ≤ fifo_cap s.ftlvl := q4
          have hbs : bs.length = words.length - fifo_cap s.ftlvl := p5a rfl
          have hdev2 : t2.dev = s.dev := by
            rw [p1a, t1dev]
          have hrx2 : t2.rxIdx = s.rxIdx + bs.length := by
            rw [p2a, t1rx]
          have hbs2r : bs2 = respList s.dev (s.rxIdx + bs.length) bs2.length := by
            rw [← hdev2, ← hrx2]
            exact q3a
          simp at h
          obtain ⟨hbuf, he, hs⟩ := h
          refine ⟨bs.length + bs2.length, by omega, ?_, ?_⟩
          · rw [← hs, q2a, p2a, t1rx]
            omega
          · have hcat : bs ++ bs2
                = respList s.dev s.rxIdx (bs.length + bs2.length) := by
              rw [respList_append s.dev bs.length s.rxIdx bs2.length,
                ← hbsr, ← hbs2r]
            rw [← hbuf, ← List.append_assoc, hcat]

/-- Claim C6.  If a fault is raised during an N-byte read, the call
returns that fault, and with k the number of bytes clocked in before the
fault, positions 0..k of the destination hold exactly those bytes in the
order they were clocked in while the remaining positions keep their
original contents: partial writes are preserved, never rolled back. -/
theorem claim6_fault_partial_preserved (words : List Nat) (s : St) (e : Error)
    (h : (spiRead words s).bind (fun x => x.2.1) = some e) :
    ∃ k, k ≤ words.length ∧
      (spiRead words s).map (fun x => x.2.2.rxIdx) = some (s.rxIdx + k) ∧
      (spiRead words s).map (fun x => x.1)
        = some (respList s.dev s.rxIdx k ++ words.drop k) := by
  rcases hr : spiRead words s with _ | t
  · rw [hr] at h
    simp at h
  · rcases t with ⟨buf, o, s1⟩
    rw [hr] at h
    simp at h
    subst h
    obtain ⟨k, hk1, hk2, hk3⟩ := spiRead_fault_core words s buf e s1 hr
    refine ⟨k, hk1, ?_, ?_⟩
    · simp [hk2]
    · simp [hk3]

/-- Witness for claim C6: a 6-byte read against the device that raises
Overrun at the sixth fault-checked interaction (one pipeline byte already
deposited). -/
theorem claim6_fault_partial_preserved_witness :
    ∃ k, k ≤ ([0, 0, 0, 0, 0, 0] : List Nat).length ∧
      (spiRead [0, 0, 0, 0, 0, 0] stF5).map (fun x => x.2.2.rxIdx)
        = some (stF5.rxIdx + k) ∧
      (spiRead [0, 0, 0, 0, 0, 0] stF5).map (fun x => x.1)
        = some (respList stF5.dev stF5.rxIdx k
            ++ ([0, 0, 0, 0, 0, 0] : List Nat).drop k) :=
  claim6_fault_partial_preserved [0, 0, 0, 0, 0, 0] stF5 .Overrun (by rfl)
